import Mathlib

/-!
Shallow embedding of the pair-construction pipeline of
`src/PodcastPreferences.ipynb`.

The notebook thresholds the row-normalised affinity matrix `normed` at
`threshold` (0.17 in the reference run) into 0/1 matrices `liked` and
`disliked`, negates the `disliked` matrix in place
(`disliked[disliked > 0] = -1`), sums the two into the polarity matrix
`both = liked + disliked`, enumerates `potential_similar_pairs` from ordered
2-permutations of each qualifying person's liked (resp. disliked) podcast
indices, and samples an equal number of dissimilar pairs with
`get_dissimilar_pair`.

Real-valued matrix entries are modelled as rationals.  Python's `random`
module is modelled by explicit oracle streams: `random.choices(both)` becomes
an arbitrary row index, and `random.sample(range(num_pods), 2)` becomes an
arbitrary stream of index pairs (its guarantees, such as the indices being in
range, are carried as hypotheses where needed).  The unbounded
`while resample` loop is modelled with explicit fuel: a result of `none`
means the loop has not accepted within the given number of iterations, so a
result of `none` for every fuel amount means the loop never terminates.
-/

set_option linter.unusedVariables false

namespace Podcast

/-- Entry of the `liked` matrix: `(normed > threshold).astype(int)`. -/
def likedEntry (threshold x : ℚ) : Int := if threshold < x then 1 else 0

/-- Entry of the `disliked` matrix before negation:
`(normed < -threshold).astype(int)`. -/
def dislikedEntry (threshold x : ℚ) : Int := if x < -threshold then 1 else 0

/-- Elementwise effect of the in-place update `disliked[disliked > 0] = -1`. -/
def negStep (d : Int) : Int := if 0 < d then -1 else d

/-- Matrix `liked = (normed > threshold).astype(int)`. -/
def liked (normed : List (List ℚ)) (threshold : ℚ) : List (List Int) :=
  normed.map (fun row => row.map (likedEntry threshold))

/-- Matrix `disliked = (normed < -threshold).astype(int)`: the 0/1 form,
before the in-place negation. -/
def disliked01 (normed : List (List ℚ)) (threshold : ℚ) : List (List Int) :=
  normed.map (fun row => row.map (dislikedEntry threshold))

/-- Matrix `disliked` after the in-place update `disliked[disliked > 0] = -1`. -/
def disliked (normed : List (List ℚ)) (threshold : ℚ) : List (List Int) :=
  (disliked01 normed threshold).map (fun row => row.map negStep)

/-- Matrix `both = liked + disliked`: elementwise sum, taken after the
negation step. -/
def both (normed : List (List ℚ)) (threshold : ℚ) : List (List Int) :=
  List.zipWith (List.zipWith (· + ·)) (liked normed threshold) (disliked normed threshold)

/-- Mask `multiprefs_liked = liked.sum(axis=1) > 1`, computed from the 0/1
`liked` matrix. -/
def multiprefs_liked (normed : List (List ℚ)) (threshold : ℚ) : List Bool :=
  (liked normed threshold).map (fun row => decide (1 < row.sum))

/-- Mask `multiprefs_disliked = disliked.sum(axis=1) > 1`, computed from the
0/1 `disliked` matrix before the in-place negation. -/
def multiprefs_disliked (normed : List (List ℚ)) (threshold : ℚ) : List Bool :=
  (disliked01 normed threshold).map (fun row => decide (1 < row.sum))

/-- Boolean-mask row selection, numpy's `rows[mask]`. -/
def maskSelect (mask : List Bool) (rows : List (List Int)) : List (List Int) :=
  (rows.zip mask).filterMap (fun p => if p.2 then some p.1 else none)

/-- Positions of value `v` in `row`, in increasing order: `np.where(row == v)[0]`. -/
def whereEq (row : List Int) (v : Int) : List Nat :=
  (List.range row.length).filter (fun i => decide (row.getD i 0 = v))

/-- Helper for `permutations2`: each element of `post` paired, in `itertools`
order, with every other element of the full list `pre ++ post`. -/
def sel2 {α : Type*} (pre : List α) : List α → List (α × α)
  | [] => []
  | a :: post => ((pre ++ post).map (fun b => (a, b))) ++ sel2 (pre ++ [a]) post

/-- Model of `list(itertools.permutations(l, 2))`: all ordered pairs of
entries of `l` taken at two distinct positions, in `itertools` order. -/
def permutations2 {α : Type*} (l : List α) : List (α × α) := sel2 [] l

/-- List `potential_similar_pairs`: for each person of `both[multiprefs_liked]`
all 2-permutations of the positions holding `1`, then for each person of
`both[multiprefs_disliked]` all 2-permutations of the positions holding `-1`. -/
def potential_similar_pairs (normed : List (List ℚ)) (threshold : ℚ) : List (Nat × Nat) :=
  ((maskSelect (multiprefs_liked normed threshold) (both normed threshold)).map
      (fun person => permutations2 (whereEq person 1))).flatten
    ++ ((maskSelect (multiprefs_disliked normed threshold) (both normed threshold)).map
      (fun person => permutations2 (whereEq person (-1)))).flatten

/-- Acceptance test inside `get_dissimilar_pair`.  Faithfully to the source,
`second_pod_polarity` is also read from `first_pod_ix`. -/
def polarityTest (chosen_person : List Int) (first_pod_ix second_pod_ix : Nat) : Bool :=
  let first_pod_polarity := chosen_person.getD first_pod_ix 0
  let second_pod_polarity := chosen_person.getD first_pod_ix 0
  decide (first_pod_polarity = 0 ∨ second_pod_polarity = 0 ∨
    first_pod_polarity = -second_pod_polarity)

/-- Model of `chosen_person = random.choices(both)[0]`: the uniform random
draw is an oracle row index `personDraw`; `random.choices` fails on an empty
population. -/
def chosenPerson (m : List (List Int)) (personDraw : Nat) : Option (List Int) :=
  m.get? personDraw

/-- Model of the `while resample` loop of `get_dissimilar_pair`.  `attempts`
is the loop's counter variable: the source initialises it to `0` and never
updates it, so it is threaded through unchanged.  `draws k` models the `k`-th
result of `random.sample(range(num_pods), 2)`.  The result `none` means the
loop has not accepted within `fuel` iterations. -/
def dissimLoop (chosen_person : List Int) (draws : Nat → Nat × Nat) (attempts : Nat) :
    Nat → Nat → Option (Nat × Nat)
  | 0, _ => none
  | fuel + 1, k =>
    let fs := draws k
    if polarityTest chosen_person fs.1 fs.2 then some fs
    else if 1000 < attempts then some fs
    else dissimLoop chosen_person draws attempts fuel (k + 1)

/-- Model of `get_dissimilar_pair(both)` with explicit random oracles and fuel. -/
def get_dissimilar_pair (m : List (List Int)) (personDraw : Nat)
    (draws : Nat → Nat × Nat) (fuel : Nat) : Option (Nat × Nat) :=
  match chosenPerson m personDraw with
  | none => none
  | some chosen_person => dissimLoop chosen_person draws 0 fuel 0

/-- Model of the sampling loop
`for i in range(len(potential_similar_pairs)): potential_dissimilar_pairs.append(get_dissimilar_pair(both))`.
The second `Nat` argument is the number of pairs still to produce, the first
is the current iteration index; `personDraws i` and `podDraws i` are the
random draws consumed by call `i`. -/
def potential_dissimilar_pairs (m : List (List Int)) (personDraws : Nat → Nat)
    (podDraws : Nat → Nat → Nat × Nat) (fuel : Nat) : Nat → Nat → Option (List (Nat × Nat))
  | _, 0 => some []
  | i, n + 1 =>
    match get_dissimilar_pair m (personDraws i) (podDraws i) fuel with
    | none => none
    | some p =>
      (potential_dissimilar_pairs m personDraws podDraws fuel (i + 1) n).map
        (fun l => p :: l)

/-- Entry `m[p][i]` of an integer matrix; `none` when out of range. -/
def matEntry (m : List (List Int)) (p i : Nat) : Option Int :=
  m[p]?.bind (fun row => row[i]?)

/-- Entry `m[p][i]` of a rational matrix; `none` when out of range. -/
def matEntryQ (m : List (List ℚ)) (p i : Nat) : Option ℚ :=
  m[p]?.bind (fun row => row[i]?)

/-- Row of the `both` matrix induced by a row of `normed`: pointwise sum of
the liked entry and the negated disliked entry. -/
def bothRow (threshold : ℚ) (row : List ℚ) : List Int :=
  row.map (fun x => likedEntry threshold x + negStep (dislikedEntry threshold x))

/-- One run of the pair-construction stage: the similar pairs (a deterministic
function of the seeded numpy data `normed`) together with the dissimilar
pairs, which additionally consume the Python `random` module, modelled by the
streams `personDraws` and `podDraws`. -/
def runPairs (normed : List (List ℚ)) (threshold : ℚ) (personDraws : Nat → Nat)
    (podDraws : Nat → Nat → Nat × Nat) (fuel : Nat) :
    List (Nat × Nat) × Option (List (Nat × Nat)) :=
  (potential_similar_pairs normed threshold,
    potential_dissimilar_pairs (both normed threshold) personDraws podDraws fuel 0
      (potential_similar_pairs normed threshold).length)

/-- Predicate: the pair `(i, j)` comes from the liked positions of some person
selected by `multiprefs_liked`, or from the disliked positions of some person
selected by `multiprefs_disliked`. -/
def pairFromQualifying (normed : List (List ℚ)) (threshold : ℚ) (i j : Nat) : Prop :=
  (∃ person, person ∈ maskSelect (multiprefs_liked normed threshold) (both normed threshold) ∧
      i ∈ whereEq person 1 ∧ j ∈ whereEq person 1) ∨
  (∃ person, person ∈ maskSelect (multiprefs_disliked normed threshold) (both normed threshold) ∧
      i ∈ whereEq person (-1) ∧ j ∈ whereEq person (-1))

/-- Claim C1: in `get_dissimilar_pair`, both polarity values of the acceptance
test are read from the first sampled podcast index, so a candidate pair passes
the test exactly when the chosen person's polarity for the first podcast is
`0`, and the second podcast index has no influence on the outcome. -/
theorem polarityTest_first_pod_only (row : List Int) (first s₁ s₂ : Nat) :
    (polarityTest row first s₁ = true ↔ row.getD first 0 = 0) ∧
    polarityTest row first s₁ = polarityTest row first s₂ := by
  refine ⟨?_, rfl⟩
  simp only [polarityTest, decide_eq_true_eq]
  constructor
  · rintro (h | h | h)
    · exact h
    · exact h
    · omega
  · intro h
    exact Or.inl h

/-- Claim C2 (code bug): the retry cap is dead code.  The source never
increments `attempts`, so `attempts > 1000` never holds, and for a person
whose polarity is nonzero for every podcast (here the person `[1, 1]`, who
liked both podcasts of a 2-podcast world) the loop never accepts: the call
returns `none` for every fuel amount, i.e. `get_dissimilar_pair` does not
terminate, contradicting the claimed 1000-attempt cap. -/
theorem get_dissimilar_pair_no_retry_cap (draws : Nat → Nat × Nat)
    (h : ∀ k, (draws k).1 < 2) (fuel : Nat) :
    get_dissimilar_pair [[1, 1]] 0 draws fuel = none := by
  have hloop : ∀ fuel k, dissimLoop [1, 1] draws 0 fuel k = none := by
    intro fuel
    induction fuel with
    | zero => intro k; rfl
    | succ n ih =>
      intro k
      have hk := h k
      have hfalse : polarityTest [1, 1] (draws k).1 (draws k).2 = false := by
        rcases hd : draws k with ⟨f, s⟩
        rw [hd] at hk
        simp only at hk
        match f, hk with
        | 0, _ => rfl
        | 1, _ => rfl
      simp only [dissimLoop, hfalse, Bool.false_eq_true, if_false]
      simpa using ih (k + 1)
  simpa [get_dissimilar_pair, chosenPerson] using hloop fuel 0

/-- Witness for C2: with the concrete draw stream constantly `(0, 1)` and fuel
2000 (well past the claimed cap of 1000), the call still has not returned. -/
theorem get_dissimilar_pair_no_retry_cap_witness :
    get_dissimilar_pair [[1, 1]] 0 (fun _ => (0, 1)) 2000 = none :=
  get_dissimilar_pair_no_retry_cap (fun _ => (0, 1)) (fun _ => Nat.zero_lt_two) 2000

/-- Claim C9 (counterexample): with one person who neither liked nor disliked
anything, the qualifying pool is empty, yet `get_dissimilar_pair` does not
fail: it returns the pair `(0, 1)`. -/
theorem get_dissimilar_pair_empty_pool_succeeds :
    maskSelect (multiprefs_liked [[(0 : ℚ), 0]] 1) (both [[(0 : ℚ), 0]] 1)
        ++ maskSelect (multiprefs_disliked [[(0 : ℚ), 0]] 1)
          (both [[(0 : ℚ), 0]] 1) = []
      ∧ get_dissimilar_pair (both [[(0 : ℚ), 0]] 1) 0 (fun _ => (0, 1)) 5
        = some (0, 1) := by
  constructor
  · decide
  · decide

/-- Claim C9 (amended): `get_dissimilar_pair` fails only when the list of
people itself is empty (`random.choices` raises on an empty population); an
empty qualifying pool does not make it fail, because the person is drawn from
all people. -/
theorem get_dissimilar_pair_fails_only_without_people (personDraw : Nat)
    (draws : Nat → Nat × Nat) (fuel : Nat) :
    get_dissimilar_pair ([] : List (List Int)) personDraw draws fuel = none := by
  cases personDraw <;> rfl

/-- Claim C3 (counterexample): for a world of two people who neither liked nor
disliked anything, the qualifying pool (the concatenation of the
`multiprefs_liked` and `multiprefs_disliked` selections) is empty, yet
`get_dissimilar_pair` can choose person 1 — the chosen person is not taken
from the pool, but from the full population. -/
theorem chosenPerson_outside_pool :
    maskSelect (multiprefs_liked [[(0 : ℚ), 0], [0, 0]] 1) (both [[(0 : ℚ), 0], [0, 0]] 1)
        ++ maskSelect (multiprefs_disliked [[(0 : ℚ), 0], [0, 0]] 1)
          (both [[(0 : ℚ), 0], [0, 0]] 1) = []
      ∧ chosenPerson (both [[(0 : ℚ), 0], [0, 0]] 1) 1 = some [0, 0] := by
  constructor
  · decide
  · decide

/-- Claim C3 (amended): `random.choices(both)` draws the person uniformly,
with replacement, from the full list of people — every row of `both` can be
chosen, with no restriction to the qualifying pool. -/
theorem chosenPerson_any_row (m : List (List Int)) (i : Nat) (h : i < m.length) :
    chosenPerson m i = some m[i] ∧ m[i] ∈ m := by
  constructor
  · rw [chosenPerson, List.get?_eq_getElem?, List.getElem?_eq_getElem h]
  · exact List.getElem_mem h

/-- Witness for the amended C3 at a concrete input: the single (unqualified)
person `[5]` is chosen. -/
theorem chosenPerson_any_row_witness :
    chosenPerson [[(5 : Int)]] 0 = some [5] ∧ [(5 : Int)] ∈ [[(5 : Int)]] :=
  chosenPerson_any_row [[(5 : Int)]] 0 (by decide)

/-- Claim C4 (counterexample): the similar/dissimilar pair construction is a
function of the Python `random` module's draws, which the notebook never
seeds (`np.random.seed(42)` seeds only numpy).  With the same seeded numpy
data (the same `normed`, hence the same `both`), two runs whose unseeded
Python streams differ produce different dissimilar-pair lists. -/
theorem dissimilar_depends_on_python_stream :
    potential_dissimilar_pairs (both [[(2 : ℚ), 2], [0, 0]] 1) (fun _ => 1)
        (fun _ _ => (0, 1)) 5 0 2
      ≠ potential_dissimilar_pairs (both [[(2 : ℚ), 2], [0, 0]] 1) (fun _ => 1)
        (fun _ _ => (1, 0)) 5 0 2 := by
  decide

/-- Claim C4 (amended): given the same seed, the data that depends only on the
seeded numpy generator is reproducible: the similar-pair list of a run is a
deterministic function of `normed` and `threshold`, identical across runs no
matter what the unseeded Python `random` streams supply; only the
dissimilar-pair component can differ. -/
theorem similar_pairs_stream_independent (normed : List (List ℚ)) (threshold : ℚ)
    (pd₁ pd₂ : Nat → Nat) (qd₁ qd₂ : Nat → Nat → Nat × Nat) (fuel₁ fuel₂ : Nat) :
    (runPairs normed threshold pd₁ qd₁ fuel₁).1 = (runPairs normed threshold pd₂ qd₂ fuel₂).1 :=
  rfl

/-- Helper for C6: whenever the dissimilar sampling loop completes, it has
produced exactly the requested number of pairs. -/
theorem potential_dissimilar_pairs_length (m : List (List Int)) (personDraws : Nat → Nat)
    (podDraws : Nat → Nat → Nat × Nat) (fuel : Nat) :
    ∀ n i l, potential_dissimilar_pairs m personDraws podDraws fuel i n = some l →
      l.length = n := by
  intro n
  induction n with
  | zero =>
    intro i l h
    simp only [potential_dissimilar_pairs, Option.some.injEq] at h
    subst h
    rfl
  | succ n ih =>
    intro i l h
    simp only [potential_dissimilar_pairs] at h
    cases hg : get_dissimilar_pair m (personDraws i) (podDraws i) fuel with
    | none => rw [hg] at h; exact absurd h (by simp)
    | some p =>
      rw [hg] at h
      cases hr : potential_dissimilar_pairs m personDraws podDraws fuel (i + 1) n with
      | none => rw [hr] at h; exact absurd h (by simp)
      | some l' =>
        rw [hr] at h
        simp only [Option.map_some', Option.some.injEq] at h
        subst h
        simp [ih (i + 1) l' hr]

/-- Claim C6: the sampling stage makes one `get_dissimilar_pair` call per
needed pair, and when it completes it has produced exactly
`len(potential_similar_pairs)` dissimilar pairs. -/
theorem dissimilar_count_matches_similar (normed : List (List ℚ)) (threshold : ℚ)
    (personDraws : Nat → Nat) (podDraws : Nat → Nat → Nat × Nat) (fuel : Nat)
    (l : List (Nat × Nat))
    (h : potential_dissimilar_pairs (both normed threshold) personDraws podDraws fuel 0
      (potential_similar_pairs normed threshold).length = some l) :
    l.length = (potential_similar_pairs normed threshold).length :=
  potential_dissimilar_pairs_length (both normed threshold) personDraws podDraws fuel
    (potential_similar_pairs normed threshold).length 0 l h

/-- Witness for C6 at a concrete input: one person liked both podcasts (two
similar pairs), one person is neutral; the completed sampling run produced a
list of the same length. -/
theorem dissimilar_count_matches_similar_witness :
    ([((0 : Nat), (1 : Nat)), (0, 1)] : List (Nat × Nat)).length
      = (potential_similar_pairs [[(2 : ℚ), 2], [0, 0]] 1).length :=
  dissimilar_count_matches_similar [[(2 : ℚ), 2], [0, 0]] 1 (fun _ => 1) (fun _ _ => (0, 1))
    5 [(0, 1), (0, 1)] (by decide)

/-- Helper: zipping two maps of the same list is a map of the combined function. -/
theorem zipWith_map_same {α β γ δ : Type*} (f : β → γ → δ) (g : α → β) (h : α → γ) :
    ∀ l : List α, List.zipWith f (l.map g) (l.map h) = l.map (fun x => f (g x) (h x))
  | [] => rfl
  | a :: l => by simp only [List.map, List.zipWith, zipWith_map_same f g h l]

/-- Helper: the `both` matrix is the rowwise image of `normed` under `bothRow`. -/
theorem both_eq (normed : List (List ℚ)) (threshold : ℚ) :
    both normed threshold = normed.map (bothRow threshold) := by
  unfold both liked disliked disliked01
  rw [List.map_map, zipWith_map_same]
  unfold bothRow
  congr 1
  funext row
  rw [Function.comp_apply, List.map_map, zipWith_map_same]
  simp [Function.comp]

/-- Helper: entry-level description of the `liked` matrix. -/
theorem matEntry_liked (normed : List (List ℚ)) (threshold : ℚ) (p i : Nat) :
    matEntry (liked normed threshold) p i
      = (matEntryQ normed p i).map (likedEntry threshold) := by
  cases h : normed[p]? with
  | none => simp [matEntry, matEntryQ, liked, List.getElem?_map, h]
  | some row => simp [matEntry, matEntryQ, liked, List.getElem?_map, h]

/-- Helper: entry-level description of the 0/1 `disliked` matrix. -/
theorem matEntry_disliked01 (normed : List (List ℚ)) (threshold : ℚ) (p i : Nat) :
    matEntry (disliked01 normed threshold) p i
      = (matEntryQ normed p i).map (dislikedEntry threshold) := by
  cases h : normed[p]? with
  | none => simp [matEntry, matEntryQ, disliked01, List.getElem?_map, h]
  | some row => simp [matEntry, matEntryQ, disliked01, List.getElem?_map, h]

/-- Helper: entry-level description of the negated `disliked` matrix. -/
theorem matEntry_disliked (normed : List (List ℚ)) (threshold : ℚ) (p i : Nat) :
    matEntry (disliked normed threshold) p i
      = (matEntryQ normed p i).map (fun x => negStep (dislikedEntry threshold x)) := by
  cases h : normed[p]? with
  | none => simp [matEntry, matEntryQ, disliked, disliked01, List.map_map, List.getElem?_map, h]
  | some row =>
    simp only [matEntry, matEntryQ, disliked, disliked01, List.map_map, List.getElem?_map, h,
      Option.map_some', Option.some_bind, Function.comp_apply]
    cases row[i]? <;> rfl

/-- Helper: entry-level description of the `both` matrix. -/
theorem matEntry_both (normed : List (List ℚ)) (threshold : ℚ) (p i : Nat) :
    matEntry (both normed threshold) p i
      = (matEntryQ normed p i).map
        (fun x => likedEntry threshold x + negStep (dislikedEntry threshold x)) := by
  rw [both_eq]
  cases h : normed[p]? with
  | none => simp [matEntry, matEntryQ, List.getElem?_map, h]
  | some row => simp [matEntry, matEntryQ, List.getElem?_map, h, bothRow]

/-- Claim C8: for a positive threshold a cell is never both liked and
disliked, and every entry of the combined polarity matrix
`both = liked + disliked` lies in `{-1, 0, 1}`. -/
theorem liked_disliked_exclusive_both_range (normed : List (List ℚ)) (threshold : ℚ)
    (h : 0 < threshold) (p i : Nat) (v : Int) :
    ¬(matEntry (liked normed threshold) p i = some 1
        ∧ matEntry (disliked01 normed threshold) p i = some 1)
    ∧ (matEntry (both normed threshold) p i = some v → v = -1 ∨ v = 0 ∨ v = 1) := by
  constructor
  · rintro ⟨h1, h2⟩
    rw [matEntry_liked] at h1
    rw [matEntry_disliked01] at h2
    cases hq : matEntryQ normed p i with
    | none => rw [hq] at h1; exact absurd h1 (by simp)
    | some x =>
      rw [hq] at h1 h2
      simp only [Option.map_some', Option.some.injEq] at h1 h2
      unfold likedEntry at h1
      unfold dislikedEntry at h2
      by_cases hx1 : threshold < x
      · by_cases hx2 : x < -threshold
        · linarith
        · simp [hx2] at h2
      · simp [hx1] at h1
  · intro hb
    rw [matEntry_both] at hb
    cases hq : matEntryQ normed p i with
    | none => rw [hq] at hb; exact absurd hb (by simp)
    | some x =>
      rw [hq] at hb
      simp only [Option.map_some', Option.some.injEq] at hb
      unfold likedEntry dislikedEntry negStep at hb
      split_ifs at hb <;> omega

/-- Witness for C8 at a concrete input: one person, one podcast, affinity 2,
threshold 1; the cell is liked, not disliked, and the `both` entry is 1. -/
theorem liked_disliked_exclusive_both_range_witness :
    ¬(matEntry (liked [[(2 : ℚ)]] 1) 0 0 = some 1
        ∧ matEntry (disliked01 [[(2 : ℚ)]] 1) 0 0 = some 1)
    ∧ ((1 : Int) = -1 ∨ (1 : Int) = 0 ∨ (1 : Int) = 1) :=
  ⟨(liked_disliked_exclusive_both_range [[(2 : ℚ)]] 1 one_pos 0 0 1).1,
    (liked_disliked_exclusive_both_range [[(2 : ℚ)]] 1 one_pos 0 0 1).2 (by decide)⟩

/-- Helper: the row sum of the 0/1 disliked entries counts the entries of the
normalized row lying strictly below `-threshold`. -/
theorem sum_disliked_row (threshold : ℚ) :
    ∀ row : List ℚ, (row.map (dislikedEntry threshold)).sum
      = (row.countP (fun x => decide (x < -threshold)) : Int)
  | [] => rfl
  | x :: xs => by
    simp only [List.map, List.sum_cons, List.countP_cons, sum_disliked_row threshold xs]
    unfold dislikedEntry
    by_cases hx : x < -threshold
    · simp [hx]
      ring
    · simp [hx]

/-- Claim C10: the in-place negation leaves the `disliked` matrix with entries
in `{0, -1}`, and the `multiprefs_disliked` mask, computed from the 0/1 form
before the negation, selects person `p` exactly when their normalized row has
at least 2 entries below `-threshold`.  In this functional embedding, `liked`,
`normed` and the masks are separate values that the negation step does not
touch, matching the claim's frame condition. -/
theorem disliked_negation_and_mask (normed : List (List ℚ)) (threshold : ℚ)
    (p i : Nat) (v : Int) (row : List ℚ) :
    (matEntry (disliked normed threshold) p i = some v → v = 0 ∨ v = -1)
    ∧ (normed[p]? = some row →
        ((multiprefs_disliked normed threshold)[p]? = some true
          ↔ 2 ≤ row.countP (fun x => decide (x < -threshold)))) := by
  constructor
  · intro h
    rw [matEntry_disliked] at h
    cases hq : matEntryQ normed p i with
    | none => rw [hq] at h; exact absurd h (by simp)
    | some x =>
      rw [hq] at h
      simp only [Option.map_some', Option.some.injEq] at h
      unfold negStep dislikedEntry at h
      split_ifs at h <;> omega
  · intro hrow
    have hmask : (multiprefs_disliked normed threshold)[p]?
        = some (decide (1 < (row.map (dislikedEntry threshold)).sum)) := by
      simp [multiprefs_disliked, disliked01, List.getElem?_map, hrow]
    rw [hmask, sum_disliked_row]
    simp only [Option.some.injEq, decide_eq_true_eq]
    constructor
    · intro h'
      omega
    · intro h'
      omega

/-- Witness for C10 at a concrete input: one person who disliked the single
podcast (affinity -2, threshold 1): the negated entry is -1, and the person
does not qualify, having only one entry below the negative threshold. -/
theorem disliked_negation_and_mask_witness :
    ((-1 : Int) = 0 ∨ (-1 : Int) = -1)
    ∧ ((multiprefs_disliked [[(-2 : ℚ)]] 1)[0]? = some true
        ↔ 2 ≤ List.countP (fun x => decide (x < -(1 : ℚ))) [(-2 : ℚ)]) :=
  ⟨(disliked_negation_and_mask [[(-2 : ℚ)]] 1 0 0 (-1) [(-2 : ℚ)]).1 (by decide),
    (disliked_negation_and_mask [[(-2 : ℚ)]] 1 0 0 (-1) [(-2 : ℚ)]).2 (by decide)⟩

/-- Helper: a pair produced by `sel2` has its first component in `post` and
its second in the full list. -/
theorem mem_sel2 {α : Type*} (a b : α) :
    ∀ (post pre : List α), (a, b) ∈ sel2 pre post → a ∈ post ∧ b ∈ pre ++ post
  | [], pre => by simp [sel2]
  | c :: rest, pre => by
    intro h
    simp only [sel2, List.mem_append] at h
    rcases h with h | h
    · rcases List.mem_map.mp h with ⟨x, hx, heq⟩
      have h1 : c = a := congrArg Prod.fst heq
      have h2 : x = b := congrArg Prod.snd heq
      subst h1
      subst h2
      refine ⟨List.mem_cons_self c rest, ?_⟩
      rcases List.mem_append.mp hx with hb | hb
      · exact List.mem_append.mpr (Or.inl hb)
      · exact List.mem_append.mpr (Or.inr (List.mem_cons_of_mem c hb))
    · have ih := mem_sel2 a b rest (pre ++ [c]) h
      refine ⟨List.mem_cons_of_mem c ih.1, ?_⟩
      have hb := ih.2
      rw [List.append_assoc, List.singleton_append] at hb
      exact hb

/-- Helper: on a duplicate-free list, `sel2` never pairs an element with
itself. -/
theorem sel2_ne {α : Type*} (a b : α) :
    ∀ (post pre : List α), (pre ++ post).Nodup → (a, b) ∈ sel2 pre post → a ≠ b
  | [], pre => by simp [sel2]
  | c :: rest, pre => by
    intro hnd h
    simp only [sel2, List.mem_append] at h
    rcases h with h | h
    · rcases List.mem_map.mp h with ⟨x, hx, heq⟩
      have h1 : c = a := congrArg Prod.fst heq
      have h2 : x = b := congrArg Prod.snd heq
      subst h1
      subst h2
      have hnd' := List.nodup_middle.mp hnd
      have hna : c ∉ pre ++ rest := (List.nodup_cons.mp hnd').1
      intro hab
      exact hna (hab ▸ hx)
    · apply sel2_ne a b rest (pre ++ [c])
      · rw [List.append_assoc, List.singleton_append]
        exact hnd
      · exact h

/-- Helper: membership in `whereEq` means a valid position holding `v`. -/
theorem mem_whereEq (row : List Int) (v : Int) (i : Nat) :
    i ∈ whereEq row v ↔ i < row.length ∧ row.getD i 0 = v := by
  simp [whereEq, List.mem_filter, List.mem_range]

/-- Helper: `whereEq` lists distinct positions. -/
theorem whereEq_nodup (row : List Int) (v : Int) : (whereEq row v).Nodup :=
  (List.nodup_range _).filter _

/-- Helper: mask selection only yields rows of the original matrix. -/
theorem mem_maskSelect (mask : List Bool) (rows : List (List Int)) (r : List Int)
    (h : r ∈ maskSelect mask rows) : r ∈ rows := by
  simp only [maskSelect, List.mem_filterMap] at h
  rcases h with ⟨⟨r', flag⟩, hmem, hif⟩
  cases flag with
  | false => simp at hif
  | true =>
    simp at hif
    subst hif
    exact (List.of_mem_zip hmem).1

/-- Helper: rows of `both` come from rows of `normed`. -/
theorem mem_both (normed : List (List ℚ)) (threshold : ℚ) (r : List Int)
    (h : r ∈ both normed threshold) : ∃ nrow ∈ normed, r = bothRow threshold nrow := by
  rw [both_eq] at h
  rcases List.mem_map.mp h with ⟨nrow, hn, hr⟩
  exact ⟨nrow, hn, hr.symm⟩

/-- Helper: a `both` row has the length of its `normed` row. -/
theorem bothRow_length (threshold : ℚ) (row : List ℚ) :
    (bothRow threshold row).length = row.length := List.length_map _ _

/-- Claim C5: every pair of `potential_similar_pairs` consists of two distinct
podcast indices, both within `[0, numPodcasts)` (the common row length `L`),
and comes from the liked positions of some person selected by
`multiprefs_liked` or the disliked positions of some person selected by
`multiprefs_disliked`; in particular no self-pair `(i, i)` appears. -/
theorem potential_similar_pairs_sound (normed : List (List ℚ)) (threshold : ℚ)
    (L i j : Nat) (hL : ∀ row ∈ normed, row.length = L)
    (hmem : (i, j) ∈ potential_similar_pairs normed threshold) :
    i ≠ j ∧ i < L ∧ j < L ∧ pairFromQualifying normed threshold i j := by
  have main : ∀ (mask : List Bool) (v : Int) (person : List Int),
      person ∈ maskSelect mask (both normed threshold) →
      (i, j) ∈ permutations2 (whereEq person v) →
      i ≠ j ∧ i < L ∧ j < L ∧ i ∈ whereEq person v ∧ j ∈ whereEq person v := by
    intro mask v person hperson hpair
    have hmem2 := mem_sel2 i j (whereEq person v) [] hpair
    simp only [List.nil_append] at hmem2
    have hne : i ≠ j :=
      sel2_ne i j (whereEq person v) [] (by simpa using whereEq_nodup person v) hpair
    have hi := (mem_whereEq person v i).mp hmem2.1
    have hj := (mem_whereEq person v j).mp hmem2.2
    have hpl : person.length = L := by
      rcases mem_both normed threshold person (mem_maskSelect _ _ _ hperson) with ⟨nrow, hn, rfl⟩
      rw [bothRow_length]
      exact hL nrow hn
    exact ⟨hne, hpl ▸ hi.1, hpl ▸ hj.1, hmem2.1, hmem2.2⟩
  unfold potential_similar_pairs at hmem
  rcases List.mem_append.mp hmem with h | h
  · rcases List.mem_flatten.mp h with ⟨lp, hlp, hpin⟩
    rcases List.mem_map.mp hlp with ⟨person, hperson, rfl⟩
    obtain ⟨hne, hi, hj, hwi, hwj⟩ := main _ 1 person hperson hpin
    exact ⟨hne, hi, hj, Or.inl ⟨person, hperson, hwi, hwj⟩⟩
  · rcases List.mem_flatten.mp h with ⟨lp, hlp, hpin⟩
    rcases List.mem_map.mp hlp with ⟨person, hperson, rfl⟩
    obtain ⟨hne, hi, hj, hwi, hwj⟩ := main _ (-1) person hperson hpin
    exact ⟨hne, hi, hj, Or.inr ⟨person, hperson, hwi, hwj⟩⟩

/-- Witness for C5 at a concrete input: one person who liked both of two
podcasts; the pair `(0, 1)` is produced and satisfies the invariant. -/
theorem potential_similar_pairs_sound_witness :
    (0 : Nat) ≠ 1 ∧ 0 < 2 ∧ 1 < 2 ∧ pairFromQualifying [[(2 : ℚ), 2]] 1 0 1 :=
  potential_similar_pairs_sound [[(2 : ℚ), 2]] 1 2 0 1 (by decide) (by decide)

/-- Helper: counting a pair in a list mapped to constant-first pairs. -/
theorem count_map_pair {α : Type*} [DecidableEq α] (c a b : α) :
    ∀ xs : List α, (xs.map (fun x => (c, x))).count (a, b) = if c = a then xs.count b else 0
  | [] => by simp
  | x :: xs => by
    rw [List.map_cons, List.count_cons, count_map_pair c a b xs, List.count_cons]
    by_cases hca : c = a
    · subst hca
      by_cases hxb : b = x
      · subst hxb
        simp
      · simp [hxb, Prod.ext_iff]
    · simp [hca, Prod.ext_iff, Ne.symm hca]

/-- Helper: occurrence count of a pair in `sel2`, in closed form. -/
theorem sel2_count {α : Type*} [DecidableEq α] (a b : α) :
    ∀ (post pre : List α),
      (sel2 pre post).count (a, b) + (if a = b then post.count a else 0)
        = post.count a * (pre ++ post).count b
  | [], pre => by simp [sel2]
  | c :: rest, pre => by
    have ih := sel2_count a b rest (pre ++ [c])
    rw [List.append_assoc, List.singleton_append] at ih
    simp only [sel2, List.count_append, count_map_pair, List.count_cons, beq_iff_eq] at ih ⊢
    by_cases hca : c = a
    · subst hca
      by_cases hab : c = b
      · subst hab
        simp at ih ⊢
        ring_nf
        ring_nf at ih
        linarith [ih]
      · simp [hab] at ih ⊢
        ring_nf
        ring_nf at ih
        linarith [ih]
    · by_cases hab : a = b
      · subst hab
        simp [hca] at ih ⊢
        ring_nf
        ring_nf at ih
        linarith [ih]
      · simp [hca, hab] at ih ⊢
        ring_nf
        ring_nf at ih
        linarith [ih]

/-- Helper: the 2-permutation list contains `(a, b)` and `(b, a)` with the
same multiplicity. -/
theorem permutations2_count_symm {α : Type*} [DecidableEq α] (l : List α) (a b : α) :
    (permutations2 l).count (a, b) = (permutations2 l).count (b, a) := by
  have h1 := sel2_count a b l []
  have h2 := sel2_count b a l []
  simp only [List.nil_append] at h1 h2
  by_cases hab : a = b
  · subst hab
    rfl
  · rw [if_neg hab] at h1
    rw [if_neg (Ne.symm hab)] at h2
    have h1' : (permutations2 l).count (a, b) = l.count a * l.count b := by
      simpa [permutations2] using h1
    have h2' : (permutations2 l).count (b, a) = l.count b * l.count a := by
      simpa [permutations2] using h2
    rw [h1', h2', Nat.mul_comm]

/-- Helper: count symmetry lifted through the per-person flatten. -/
theorem count_flatten_perm2_symm (persons : List (List Int)) (v : Int) (i j : Nat) :
    ((persons.map (fun p => permutations2 (whereEq p v))).flatten).count (i, j)
      = ((persons.map (fun p => permutations2 (whereEq p v))).flatten).count (j, i) := by
  induction persons with
  | nil => rfl
  | cons p ps ih =>
    rw [List.map_cons, List.flatten_cons, List.count_append, List.count_append, ih,
      permutations2_count_symm (whereEq p v) i j]

/-- Claim C7: `potential_similar_pairs` is built from all ordered
2-permutations of each qualifying person's liked (resp. disliked) index set,
so every pair `(i, j)` occurs exactly as often as its reverse `(j, i)`. -/
theorem potential_similar_pairs_count_symm (normed : List (List ℚ)) (threshold : ℚ)
    (i j : Nat) :
    (potential_similar_pairs normed threshold).count (i, j)
      = (potential_similar_pairs normed threshold).count (j, i) := by
  unfold potential_similar_pairs
  rw [List.count_append, List.count_append,
    count_flatten_perm2_symm
      (maskSelect (multiprefs_liked normed threshold) (both normed threshold)) 1 i j,
    count_flatten_perm2_symm
      (maskSelect (multiprefs_disliked normed threshold) (both normed threshold)) (-1) i j]

end Podcast
